import Mathlib

/-!
Shallow embedding of `redisdb.go` (package `redisdb`, henryse/go-redisdb).

Go values returned by the store are modelled by the inductive `RValue`
(integer reply, bulk string reply, array reply, nil reply, error reply).
A round trip `conn.Do(...)` is modelled by its outcome
`Except String RValue`: either a transport error or a reply value.

The redigo conversion helpers (`redis.Int`, `redis.Strings`,
`redis.StringMap`, `redis.Values`, `redis.String`, `redis.Bytes`,
`redis.Bool`) are third-party library functions whose sources are not part
of this repository; they are modelled here from their documented contracts:
on a non-nil incoming error they pass it through with a zero result, on a
reply of the wrong type they fail with a conversion error and a zero
result, and on a well-typed reply they convert it.

Go slices distinguish nil from empty: a slice parameter or result that can
be Go-nil is modelled as `Option (List _)`.  Go strings are byte sequences;
where byte-level slicing matters (the value preview of `Set` and `HMSet`)
they are modelled as `List Nat` of bytes, elsewhere as Lean `String`.
Go's `(result, error)` pairs are modelled as pairs with `Option String`
errors.
-/

namespace RedisDB

/-- A reply value from the store, as surfaced by the redigo driver. -/
inductive RValue where
  | int (n : Int)
  | bulk (s : String)
  | array (vs : List RValue)
  | nil
  | err (msg : String)

/-- Modelled from the documented contract of redigo `redis.Int`:
incoming error passes through with result 0; an integer reply converts;
a bulk reply is parsed as an integer (parse failure gives 0 and an error);
nil, error and other replies give 0 and an error. -/
def redisInt : Except String RValue → Int × Option String
  | .error e => (0, some e)
  | .ok (.int n) => (n, none)
  | .ok (.bulk s) =>
    match s.toInt? with
    | some n => (n, none)
    | none => (0, some "redigo: cannot parse integer reply")
  | .ok .nil => (0, some "redigo: nil returned")
  | .ok (.err m) => (0, some m)
  | .ok (.array _) => (0, some "redigo: unexpected type for Int")

/-- Converts the elements of an array reply to strings: bulk elements
convert, nil elements become the empty string, anything else fails. -/
def stringsOfList : List RValue → Option (List String)
  | [] => some []
  | .bulk s :: rest => (stringsOfList rest).map (fun l => s :: l)
  | .nil :: rest => (stringsOfList rest).map (fun l => "" :: l)
  | _ :: _ => none

/-- Modelled from the documented contract of redigo `redis.Strings`:
incoming error passes through with a nil slice; an array reply of bulk
(or nil) elements converts; any other reply gives a nil slice and an
error. -/
def redisStrings : Except String RValue → Option (List String) × Option String
  | .error e => (none, some e)
  | .ok (.array vs) =>
    match stringsOfList vs with
    | some l => (some l, none)
    | none => (none, some "redigo: unexpected element type for Strings")
  | .ok .nil => (none, some "redigo: nil returned")
  | .ok (.err m) => (none, some m)
  | .ok _ => (none, some "redigo: unexpected type for Strings")

/-- Modelled from the documented contract of redigo `redis.Values`:
incoming error passes through with a nil slice; an array reply converts;
any other reply gives a nil slice and an error. -/
def redisValues : Except String RValue → Option (List RValue) × Option String
  | .error e => (none, some e)
  | .ok (.array vs) => (some vs, none)
  | .ok .nil => (none, some "redigo: nil returned")
  | .ok (.err m) => (none, some m)
  | .ok _ => (none, some "redigo: unexpected type for Values")

/-- Inserts a binding into an association-list model of a Go map:
an existing binding for the key is overwritten in place, a new key is
appended. -/
def mapInsert (m : List (String × String)) (k v : String) : List (String × String) :=
  if m.any (fun p => p.1 = k) then
    m.map (fun p => if p.1 = k then (k, v) else p)
  else
    m ++ [(k, v)]

/-- The loop body of `spliceMap`: `result[keys[i]] = values[i]` for `i`
ascending over the zipped sequences. -/
def buildMap (ks vs : List String) : List (String × String) :=
  (ks.zip vs).foldl (fun m p => mapInsert m p.1 p.2) []

/-- `spliceMap` from redisdb.go lines 132-155: pairs a slice of field
names with a slice of values into a map, passing an upstream error
through.  Nil slices are `none`; the Go `(map, error)` result is a pair. -/
def spliceMap (keys values : Option (List String)) (err : Option String) :
    Option (List (String × String)) × Option String :=
  if keys = none ∨ values = none then
    match err with
    | none => (none, some "redis: cannot splice keys supplied to HMGET with values returned because one or both slices are nil")
    | some e => (none, some e)
  else
    let ks := keys.getD []
    let vs := values.getD []
    if ks.length ≠ vs.length then
      match err with
      | none => (none, some "redis: cannot splice keys supplied to HMGET with values returned because their lengths are different")
      | some e => (none, some e)
    else
      (some (buildMap ks vs), err)

/-- Records the observable pool and network activity of one operation:
how many connections it borrowed from the pool and which commands it
issued. -/
structure OpTrace where
  borrows : Nat
  commands : List String
deriving DecidableEq, Repr

/-- `HMGet` from redisdb.go lines 157-167: an empty field list is
rejected before any connection is borrowed or command issued; otherwise
one `HMGET` round trip runs and its reply is spliced with the field
names.  `reply` is the outcome of that round trip. -/
def HMGet (fields : List String) (reply : Except String RValue) :
    (Option (List (String × String)) × Option String) × OpTrace :=
  if fields.length = 0 then
    ((none, some "redis: at least once field is required"), ⟨0, []⟩)
  else
    let values := redisStrings reply
    (spliceMap (some fields) values.1 values.2, ⟨1, ["HMGET"]⟩)

/-- `HMGetKeys` from redisdb.go lines 169-175: issues `HKEYS`, discards
the conversion error, and returns the (possibly nil, hence empty)
string slice.  No error is returned to the caller. -/
def HMGetKeys (reply : Except String RValue) : List String :=
  ((redisStrings reply).1).getD []

/-- Converts an array reply of alternating field and value bulk strings
into pairs, as redigo `redis.StringMap` does; fails on an odd number of
elements or a non-bulk element. -/
def stringMapPairs : List RValue → Option (List (String × String))
  | [] => some []
  | .bulk k :: .bulk v :: rest => (stringMapPairs rest).map (fun l => (k, v) :: l)
  | _ => none

/-- Modelled from the documented contract of redigo `redis.StringMap`:
incoming error passes through with a nil map; an even-length array of
bulk strings converts to a field to value map; anything else gives a nil
map and an error. -/
def redisStringMap : Except String RValue → Option (List (String × String)) × Option String
  | .error e => (none, some e)
  | .ok (.array vs) =>
    match stringMapPairs vs with
    | some ps => (some (ps.foldl (fun m p => mapInsert m p.1 p.2) []), none)
    | none => (none, some "redigo: StringMap expects even number of bulk string values")
  | .ok .nil => (none, some "redigo: nil returned")
  | .ok (.err m) => (none, some m)
  | .ok _ => (none, some "redigo: unexpected type for StringMap")

/-- `HMGetAll` from redisdb.go lines 177-183: issues `HGETALL`, discards
the conversion error, and returns the (possibly nil, hence empty) map.
No error is returned to the caller. -/
def HMGetAll (reply : Except String RValue) : List (String × String) :=
  ((redisStringMap reply).1).getD []

/-- Modelled from the documented contract of redigo `redis.String`:
incoming error passes through with an empty string; a bulk reply
converts; anything else gives an empty string and an error. -/
def redisString : Except String RValue → String × Option String
  | .error e => ("", some e)
  | .ok (.bulk s) => (s, none)
  | .ok .nil => ("", some "redigo: nil returned")
  | .ok (.err m) => ("", some m)
  | .ok _ => ("", some "redigo: unexpected type for String")

/-- `Ping` from redisdb.go lines 41-51: issues `PING`; a failure is
wrapped with the operation name before being returned. -/
def Ping (reply : Except String RValue) : Option String :=
  match (redisString reply).2 with
  | some e => some ("cannot 'PING' db: " ++ e)
  | none => none

/-- Modelled from the documented contract of redigo `redis.Bytes`;
byte content is carried as a Lean string here since `Get` never slices
it.  Incoming error passes through with a nil payload; a bulk reply
converts; anything else gives a nil payload and an error. -/
def redisBytes : Except String RValue → String × Option String
  | .error e => ("", some e)
  | .ok (.bulk s) => (s, none)
  | .ok .nil => ("", some "redigo: nil returned")
  | .ok (.err m) => ("", some m)
  | .ok _ => ("", some "redigo: unexpected type for Bytes")

/-- `Get` from redisdb.go lines 53-64: issues `GET`; a failure is
wrapped with the operation name and the key before being returned,
alongside the (zero) payload. -/
def Get (key : String) (reply : Except String RValue) : String × Option String :=
  let data := redisBytes reply
  match data.2 with
  | some e => (data.1, some ("error getting key " ++ key ++ ": " ++ e))
  | none => (data.1, none)

/-- Go `strconv.ParseBool`, used by redigo `redis.Bool` on bulk replies. -/
def parseBool (s : String) : Option Bool :=
  if s = "1" ∨ s = "t" ∨ s = "T" ∨ s = "true" ∨ s = "TRUE" ∨ s = "True" then some true
  else if s = "0" ∨ s = "f" ∨ s = "F" ∨ s = "false" ∨ s = "FALSE" ∨ s = "False" then some false
  else none

/-- Modelled from the documented contract of redigo `redis.Bool`:
incoming error passes through with `false`; an integer reply is compared
with zero; a bulk reply is parsed as a boolean; anything else gives
`false` and an error. -/
def redisBool : Except String RValue → Bool × Option String
  | .error e => (false, some e)
  | .ok (.int n) => (n ≠ 0, none)
  | .ok (.bulk s) =>
    match parseBool s with
    | some b => (b, none)
    | none => (false, some "redigo: cannot parse boolean reply")
  | .ok .nil => (false, some "redigo: nil returned")
  | .ok (.err m) => (false, some m)
  | .ok (.array _) => (false, some "redigo: unexpected type for Bool")

/-- `Exists` from redisdb.go lines 82-92: issues `EXISTS`; a failure is
wrapped with the operation name and the key before being returned,
alongside the (zero) boolean. -/
def Exists (key : String) (reply : Except String RValue) : Bool × Option String :=
  let ok := redisBool reply
  match ok.2 with
  | some e => (ok.1, some ("error checking if key " ++ key ++ " exists: " ++ e))
  | none => (ok.1, none)

/-- `Delete` from redisdb.go lines 94-101: issues `DEL` and returns the
round-trip error exactly as received, with no wrapping. -/
def Delete (reply : Except String RValue) : Option String :=
  match reply with
  | .error e => some e
  | .ok _ => none

/-- `Incr` from redisdb.go lines 200-206: issues `INCR` and returns
`redis.Int` of the reply directly, with no wrapping of the error. -/
def Incr (reply : Except String RValue) : Int × Option String :=
  redisInt reply

/-- Go strings are byte sequences; `Bytes` models one at byte
granularity. -/
abbrev Bytes := List Nat

/-- The bytes of an ASCII string literal. -/
def strB (s : String) : Bytes :=
  s.toList.map Char.toNat

/-- The value preview built inline by `Set` (lines 73-76) and `HMSet`
(lines 191-194): `v := string(value); if len(v) > 15 { v = v[0:12] + "..." }`.
Lengths and slicing are on bytes, as in Go. -/
def previewValue (v : Bytes) : Bytes :=
  if v.length > 15 then v.take 12 ++ strB "..." else v

/-- `Set` from redisdb.go lines 66-80: issues `SET`; a failure is
wrapped with the key and a bounded preview of the value.  `doErr` is the
round-trip error; key, value and error are byte strings. -/
def Set (key value : Bytes) (doErr : Option Bytes) : Option Bytes :=
  match doErr with
  | none => none
  | some e =>
    some (strB "error setting key " ++ key ++ strB " to " ++ previewValue value
      ++ strB ": " ++ e)

/-- `HMSet` from redisdb.go lines 185-198: issues `HMSET`; a failure is
wrapped with the key, the hash field and a bounded preview of the
value. -/
def HMSet (key hashKey value : Bytes) (doErr : Option Bytes) : Option Bytes :=
  match doErr with
  | none => none
  | some e =>
    some (strB "error setting key " ++ key ++ strB ":" ++ hashKey ++ strB " to "
      ++ previewValue value ++ strB ": " ++ e)

/-- The outcome of running a piece of Go code: a normal result, a
runtime panic, or no result within the modelled number of loop
iterations. -/
inductive GoResult (α : Type) where
  | ok (a : α)
  | panicked (msg : String)
  | outOfFuel

/-- The `for` loop of `GetKeys` (redisdb.go lines 110-123).  `conn`
maps the cursor sent in a `SCAN cursor MATCH pattern` request to that
round trip's outcome; `iter` and `keys` are the loop variables; `fuel`
bounds the number of iterations modelled (the Go loop is unbounded).
A round-trip error returns the keys collected so far with a fresh
pattern-context error; otherwise `arr[0]` and `arr[1]` are converted
with their conversion errors discarded, the batch is appended, and the
loop exits exactly when the new cursor is 0. -/
def getKeysLoop (conn : Int → Except String RValue) (pattern : String) :
    Nat → Int → List String → GoResult (List String × Option String)
  | 0, _, _ => .outOfFuel
  | fuel + 1, iter, keys =>
    let arrRes := redisValues (conn iter)
    match arrRes.2 with
    | some _ => .ok (keys, some ("error retrieving '" ++ pattern ++ "' keys"))
    | none =>
      match arrRes.1.getD [] with
      | a0 :: a1 :: _ =>
        let nextIter := (redisInt (.ok a0)).1
        let k := ((redisStrings (.ok a1)).1).getD []
        let keys2 := keys ++ k
        if nextIter = 0 then .ok (keys2, none)
        else getKeysLoop conn pattern fuel nextIter keys2
      | _ => .panicked "runtime error: index out of range"

/-- `GetKeys` from redisdb.go lines 103-126: starts the scan loop at
cursor 0 with no keys collected. -/
def GetKeys (conn : Int → Except String RValue) (pattern : String) (fuel : Nat) :
    GoResult (List String × Option String) :=
  getKeysLoop conn pattern fuel 0 []

/-- The outcome of calling a pool dial function: a live connection
(modelled as a unit), an error returned to the caller, or a panic. -/
inductive DialResult where
  | conn
  | errorReturned (msg : String)
  | panicked (msg : String)

/-- The `Dial` closure installed by `newPool` (redisdb.go lines
220-226): on a `redis.DialURL` failure it panics with the error text;
on success it returns the connection.  `attempt` is the outcome of
`redis.DialURL(redisURL)`. -/
def newPoolDial (attempt : Except String Unit) : DialResult :=
  match attempt with
  | .error e => .panicked e
  | .ok _ => .conn

/-- The pool configuration built by `newPool` (redisdb.go lines
212-228). -/
structure Pool where
  maxIdle : Nat
  maxActive : Nat
  dial : Except String Unit → DialResult

/-- `newPool` from redisdb.go lines 212-228. -/
def newPool : Pool :=
  { maxIdle := 80
    maxActive := 12000
    dial := newPoolDial }

/-- A well-behaved scan protocol: from cursor `c` the store serves the
given rounds, each a pair of the next cursor and a batch of keys as an
array of bulk strings; the last round (and only the last) returns
cursor 0. -/
def Serves (conn : Int → Except String RValue) : Int → List (Int × List String) → Prop
  | _, [] => False
  | c, (nc, batch) :: rest =>
    conn c = .ok (.array [.int nc, .array (batch.map RValue.bulk)])
    ∧ ((nc = 0 ∧ rest = []) ∨ (nc ≠ 0 ∧ Serves conn nc rest))

/-- A prefix of a scan: from cursor `c` the store serves the given
rounds, every one with a nonzero next cursor, so the scan is still in
progress afterwards. -/
def ServesPartial (conn : Int → Except String RValue) : Int → List (Int × List String) → Prop
  | _, [] => True
  | c, (nc, batch) :: rest =>
    conn c = .ok (.array [.int nc, .array (batch.map RValue.bulk)])
    ∧ nc ≠ 0 ∧ ServesPartial conn nc rest

/-- The cursor reached after the given rounds, starting from `c`. -/
def endCursor : Int → List (Int × List String) → Int
  | c, [] => c
  | _, (nc, _) :: rest => endCursor nc rest

/-- Encodes a field-to-value association as the flat array of
alternating bulk strings that `HGETALL` returns. -/
def encodePairs : List (String × String) → List RValue
  | [] => []
  | (k, v) :: rest => .bulk k :: .bulk v :: encodePairs rest

end RedisDB

/-! ## Helper lemmas -/

theorem stringsOfList_map_bulk (l : List String) :
    RedisDB.stringsOfList (l.map RedisDB.RValue.bulk) = some l := by
  induction l with
  | nil => rfl
  | cons s rest ih => simp [RedisDB.stringsOfList, ih]

theorem redisInt_error_zero (r : Except String RedisDB.RValue)
    (h : ((RedisDB.redisInt r).2).isSome) : (RedisDB.redisInt r).1 = 0 := by
  rcases r with e | v
  · rfl
  · rcases v with n | s | vs | _ | m <;> simp [RedisDB.redisInt] at h ⊢
    rcases hs : s.toInt? with _ | n <;> simp [RedisDB.redisInt, hs] at h ⊢

theorem redisStrings_error_none (r : Except String RedisDB.RValue)
    (h : ((RedisDB.redisStrings r).2).isSome) : (RedisDB.redisStrings r).1 = none := by
  rcases r with e | v
  · rfl
  · rcases v with n | s | vs | _ | m <;> simp [RedisDB.redisStrings] at h ⊢
    rcases hs : RedisDB.stringsOfList vs with _ | l <;> simp [hs] at h ⊢

theorem redisStringMap_error_none (r : Except String RedisDB.RValue)
    (h : ((RedisDB.redisStringMap r).2).isSome) : (RedisDB.redisStringMap r).1 = none := by
  rcases r with e | v
  · rfl
  · rcases v with n | s | vs | _ | m <;> simp [RedisDB.redisStringMap] at h ⊢
    rcases hs : RedisDB.stringMapPairs vs with _ | l <;> simp [hs] at h ⊢

theorem stringMapPairs_encode (ps : List (String × String)) :
    RedisDB.stringMapPairs (RedisDB.encodePairs ps) = some ps := by
  induction ps with
  | nil => rfl
  | cons p rest ih =>
    rcases p with ⟨k, v⟩
    simp [RedisDB.encodePairs, RedisDB.stringMapPairs, ih]

/-! ## Claims -/

/-- Claim C1: with a nil upstream error, `spliceMap` succeeds (returns a
mapping and nil error) iff both slices are non-nil and of equal length;
in every other case it returns no mapping and a non-nil shape error (one
of the two fixed shape-error messages); being a total Lean function, it
never panics. -/
theorem spliceMap_reconcile_total (F V : Option (List String)) :
    ((RedisDB.spliceMap F V none).2 = none ↔
      ∃ ks vs, F = some ks ∧ V = some vs ∧ ks.length = vs.length)
    ∧ ((RedisDB.spliceMap F V none).2 = none → ((RedisDB.spliceMap F V none).1).isSome)
    ∧ ((RedisDB.spliceMap F V none).2 ≠ none →
      RedisDB.spliceMap F V none =
        (none, some "redis: cannot splice keys supplied to HMGET with values returned because one or both slices are nil")
      ∨ RedisDB.spliceMap F V none =
        (none, some "redis: cannot splice keys supplied to HMGET with values returned because their lengths are different")) := by
  rcases F with _ | ks
  · simp [RedisDB.spliceMap]
  rcases V with _ | vs
  · simp [RedisDB.spliceMap]
  by_cases h : ks.length = vs.length <;> simp [RedisDB.spliceMap, h]

/-- Claim C1 witness: a concrete successful reconciliation. -/
theorem spliceMap_reconcile_total_witness :
    (RedisDB.spliceMap (some ["a", "b"]) (some ["1", "2"]) none).2 = none :=
  (spliceMap_reconcile_total (some ["a", "b"]) (some ["1", "2"])).1.mpr
    ⟨["a", "b"], ["1", "2"], rfl, rfl, rfl⟩

/-- Claim C7 counterexample: with a non-nil upstream error but two
non-nil slices of equal length, `spliceMap` builds and returns the
mapping alongside the error, contradicting the claim that it returns a
nil mapping regardless of the shapes. -/
theorem spliceMap_upstream_error_counterexample :
    RedisDB.spliceMap (some ["a"]) (some ["1"]) (some "boom")
      = (some [("a", "1")], some "boom")
    ∧ (RedisDB.spliceMap (some ["a"]) (some ["1"]) (some "boom")).1 ≠ none := by
  refine ⟨?_, ?_⟩ <;> decide

/-- Claim C7 amended: `spliceMap` always propagates a non-nil upstream
error as its error result; when either slice is nil or the lengths
differ it returns no mapping, but when both slices are non-nil and of
equal length it builds and returns the mapping alongside the error. -/
theorem spliceMap_upstream_error_propagates (F V : Option (List String)) (e : String) :
    ((RedisDB.spliceMap F V (some e)).2 = some e)
    ∧ ((F = none ∨ V = none) → RedisDB.spliceMap F V (some e) = (none, some e))
    ∧ (∀ ks vs, F = some ks → V = some vs → ks.length ≠ vs.length →
      RedisDB.spliceMap F V (some e) = (none, some e))
    ∧ (∀ ks vs, F = some ks → V = some vs → ks.length = vs.length →
      RedisDB.spliceMap F V (some e) = (some (RedisDB.buildMap ks vs), some e)) := by
  rcases F with _ | ks
  · simp [RedisDB.spliceMap]
  rcases V with _ | vs
  · simp [RedisDB.spliceMap]
  by_cases h : ks.length = vs.length <;> simp [RedisDB.spliceMap, h]

/-- Claim C7 amended, witness: a concrete nil-shaped call propagates the
upstream error with no mapping. -/
theorem spliceMap_upstream_error_propagates_witness :
    RedisDB.spliceMap (some ["f"]) none (some "down") = (none, some "down") :=
  (spliceMap_upstream_error_propagates (some ["f"]) none "down").2.1 (Or.inr rfl)

/-- Claim C4: the dial function installed by `newPool` panics with the
dial error's text whenever the dial attempt fails, instead of returning
a connection error to the caller; evaluated here at every failing
attempt.  This contradicts the specified behavior (spec section 4.1 and
section 9), which requires a failed dial to return an error without
terminating the process. -/
theorem newPool_dial_panics_on_failure (e : String) :
    RedisDB.newPool.dial (.error e) = .panicked e := rfl

/-- Claim C5: `HMGet` with zero field names returns a nil map and the
fixed usage error, with zero pool borrows and zero commands issued,
whatever the round-trip oracle would have answered. -/
theorem hmget_empty_fields_rejected (reply : Except String RedisDB.RValue) :
    RedisDB.HMGet [] reply
      = ((none, some "redis: at least once field is required"), ⟨0, []⟩) := rfl

/-- Claim C6: `HMGetKeys` and `HMGetAll` have no error result at all;
on a transport error, on any reply the conversion helpers reject
(absent key giving a nil reply, an error reply, a malformed reply),
they return the empty sequence / empty mapping, and on a well-formed
reply they return the store's field names / field-value mapping. -/
theorem hash_reads_suppress_errors :
    (∀ e : String, RedisDB.HMGetKeys (.error e) = [] ∧ RedisDB.HMGetAll (.error e) = [])
    ∧ (∀ r : Except String RedisDB.RValue,
      ((RedisDB.redisStrings r).2).isSome → RedisDB.HMGetKeys r = [])
    ∧ (∀ r : Except String RedisDB.RValue,
      ((RedisDB.redisStringMap r).2).isSome → RedisDB.HMGetAll r = [])
    ∧ (∀ names : List String,
      RedisDB.HMGetKeys (.ok (.array (names.map RedisDB.RValue.bulk))) = names)
    ∧ (∀ ps : List (String × String),
      RedisDB.HMGetAll (.ok (.array (RedisDB.encodePairs ps)))
        = ps.foldl (fun m p => RedisDB.mapInsert m p.1 p.2) []) := by
  refine ⟨fun e => ⟨rfl, rfl⟩, ?_, ?_, ?_, ?_⟩
  · intro r h
    simp [RedisDB.HMGetKeys, redisStrings_error_none r h]
  · intro r h
    simp [RedisDB.HMGetAll, redisStringMap_error_none r h]
  · intro names
    simp [RedisDB.HMGetKeys, RedisDB.redisStrings, stringsOfList_map_bulk]
  · intro ps
    simp [RedisDB.HMGetAll, RedisDB.redisStringMap, stringMapPairs_encode]

/-- Claim C6 witness: an error reply (for example `WRONGTYPE` from a
non-hash key) is suppressed and yields the empty sequence. -/
theorem hash_reads_suppress_errors_witness :
    RedisDB.HMGetKeys (.ok (.err "WRONGTYPE")) = [] :=
  hash_reads_suppress_errors.2.1 (.ok (.err "WRONGTYPE")) rfl

/-- Claim C8 counterexample: `Delete` and `Incr` return the underlying
transport error exactly as received, with no operation name or key
context, contradicting the claim that every operation wraps its errors
before returning them. -/
theorem delete_incr_raw_error_counterexample :
    RedisDB.Delete (.error "connection refused") = some "connection refused"
    ∧ RedisDB.Incr (.error "connection refused") = (0, some "connection refused") :=
  ⟨rfl, rfl⟩

/-- Claim C8 amended: `Ping`, `Get`, `Exists`, `Set` and `HMSet` wrap
their errors with the operation name and key/field context (with the
value preview truncated); `Delete` and `Incr` return the underlying
error unwrapped; `HMGet` passes a transport error through the reconciler
unwrapped; `GetKeys` replaces the transport error with a fresh
pattern-context error. -/
theorem operation_error_wrapping (key e : String) (keyB hkB v eB : RedisDB.Bytes) :
    RedisDB.Ping (.error e) = some ("cannot 'PING' db: " ++ e)
    ∧ RedisDB.Get key (.error e) = ("", some ("error getting key " ++ key ++ ": " ++ e))
    ∧ RedisDB.Exists key (.error e)
      = (false, some ("error checking if key " ++ key ++ " exists: " ++ e))
    ∧ RedisDB.Set keyB v (some eB)
      = some (RedisDB.strB "error setting key " ++ keyB ++ RedisDB.strB " to "
        ++ RedisDB.previewValue v ++ RedisDB.strB ": " ++ eB)
    ∧ RedisDB.HMSet keyB hkB v (some eB)
      = some (RedisDB.strB "error setting key " ++ keyB ++ RedisDB.strB ":" ++ hkB
        ++ RedisDB.strB " to " ++ RedisDB.previewValue v ++ RedisDB.strB ": " ++ eB)
    ∧ RedisDB.Delete (.error e) = some e
    ∧ RedisDB.Incr (.error e) = (0, some e)
    ∧ (∀ fields : List String, fields ≠ [] →
      (RedisDB.HMGet fields (.error e)).1 = (none, some e))
    ∧ (∀ pattern fuel, RedisDB.GetKeys (fun _ => .error e) pattern (fuel + 1)
      = .ok ([], some ("error retrieving '" ++ pattern ++ "' keys"))) := by
  refine ⟨rfl, rfl, rfl, rfl, rfl, rfl, rfl, ?_, ?_⟩
  · intro fields hne
    have hlen : fields.length ≠ 0 := by
      simpa [List.length_eq_zero] using hne
    simp [RedisDB.HMGet, hlen, RedisDB.redisStrings, RedisDB.spliceMap]
  · intro pattern fuel
    rfl

/-- Claim C8 amended, witness: a concrete nonempty-field `HMGet` passes
the transport error through unwrapped. -/
theorem operation_error_wrapping_witness :
    (RedisDB.HMGet ["f1"] (.error "boom")).1 = (none, some "boom") :=
  (operation_error_wrapping "k" "boom" [] [] [] []).2.2.2.2.2.2.2.1 ["f1"] (by decide)

/-- Claim C9: the error messages of `Set` and `HMSet` embed a bounded
preview of the value: a value longer than 15 bytes is previewed as
exactly its first 12 bytes followed by "..." (15 bytes in all); a value
of at most 15 bytes appears in full; the preview never exceeds 15
bytes; and the message of each operation contains the preview. -/
theorem set_hmset_value_preview (key hk e : RedisDB.Bytes) (v : RedisDB.Bytes) :
    (v.length > 15 →
      RedisDB.previewValue v = v.take 12 ++ RedisDB.strB "..."
      ∧ (RedisDB.previewValue v).length = 15)
    ∧ (v.length ≤ 15 → RedisDB.previewValue v = v)
    ∧ (RedisDB.previewValue v).length ≤ 15
    ∧ (∀ m, RedisDB.Set key v (some e) = some m →
      ∃ pre post, m = pre ++ RedisDB.previewValue v ++ post)
    ∧ (∀ m, RedisDB.HMSet key hk v (some e) = some m →
      ∃ pre post, m = pre ++ RedisDB.previewValue v ++ post) := by
  have hdots : (RedisDB.strB "...").length = 3 := by decide
  refine ⟨?_, ?_, ?_, ?_, ?_⟩
  · intro h
    have : RedisDB.previewValue v = v.take 12 ++ RedisDB.strB "..." := by
      simp [RedisDB.previewValue, h]
    refine ⟨this, ?_⟩
    rw [this, List.length_append, List.length_take, hdots]
    omega
  · intro h
    simp [RedisDB.previewValue]
    omega
  · by_cases h : v.length > 15
    · simp [RedisDB.previewValue, h, List.length_take, hdots]
    · simp [RedisDB.previewValue, h]
      omega
  · intro m hm
    simp only [RedisDB.Set, Option.some.injEq] at hm
    exact ⟨RedisDB.strB "error setting key " ++ key ++ RedisDB.strB " to ",
      RedisDB.strB ": " ++ e, by simp [← hm, List.append_assoc]⟩
  · intro m hm
    simp only [RedisDB.HMSet, Option.some.injEq] at hm
    exact ⟨RedisDB.strB "error setting key " ++ key ++ RedisDB.strB ":" ++ hk
        ++ RedisDB.strB " to ",
      RedisDB.strB ": " ++ e, by simp [← hm, List.append_assoc]⟩

/-- Claim C9 witness: a concrete 16-byte value is previewed as its
first 12 bytes plus the ellipsis, 15 bytes in all, and a concrete
5-byte value appears in full. -/
theorem set_hmset_value_preview_witness :
    (RedisDB.previewValue (RedisDB.strB "0123456789ABCDEF")
      = (RedisDB.strB "0123456789ABCDEF").take 12 ++ RedisDB.strB "..."
    ∧ (RedisDB.previewValue (RedisDB.strB "0123456789ABCDEF")).length = 15)
    ∧ RedisDB.previewValue (RedisDB.strB "alice") = RedisDB.strB "alice" :=
  ⟨(set_hmset_value_preview [] [] [] (RedisDB.strB "0123456789ABCDEF")).1 (by decide),
   (set_hmset_value_preview [] [] [] (RedisDB.strB "alice")).2.1 (by decide)⟩

/-- The scan loop under a well-behaved protocol: from any cursor and any
keys collected so far, serving the remaining rounds appends their
batches in arrival order and ends with a nil error. -/
theorem getKeysLoop_serves (conn : Int → Except String RedisDB.RValue) (pattern : String)
    (rounds : List (Int × List String)) :
    ∀ (c : Int) (keys : List String) (fuel : Nat),
      RedisDB.Serves conn c rounds → rounds.length ≤ fuel →
      RedisDB.getKeysLoop conn pattern fuel c keys
        = .ok (keys ++ (rounds.map Prod.snd).flatten, none) := by
  induction rounds with
  | nil =>
    intro c keys fuel hserves _
    exact absurd hserves (by simp [RedisDB.Serves])
  | cons round rest ih =>
    rcases round with ⟨nc, batch⟩
    intro c keys fuel hserves hfuel
    rcases hserves with ⟨hconn, hrest⟩
    rcases fuel with _ | fuel
    · simp at hfuel
    by_cases hnc : nc = 0
    · rcases hrest with ⟨_, hrest⟩ | ⟨hne, _⟩
      · subst hnc
        subst hrest
        simp [RedisDB.getKeysLoop, hconn, RedisDB.redisValues, RedisDB.redisInt,
          RedisDB.redisStrings, stringsOfList_map_bulk]
      · exact absurd hnc hne
    · rcases hrest with ⟨h0, _⟩ | ⟨_, hrest⟩
      · exact absurd h0 hnc
      · have hlen : rest.length ≤ fuel := by
          simpa using hfuel
        have := ih nc (keys ++ batch) fuel hrest hlen
        simp [RedisDB.getKeysLoop, hconn, RedisDB.redisValues, RedisDB.redisInt,
          RedisDB.redisStrings, stringsOfList_map_bulk, hnc, this]

/-- Claim C2: `GetKeys` starts the scan at cursor 0, issues one request
per round, appends the batches in arrival order, follows the returned
cursors, and when the store serves a well-behaved protocol (last
returned cursor 0, given enough loop iterations) returns exactly the
concatenation of all batches with a nil error. -/
theorem getKeys_scan_loop (conn : Int → Except String RedisDB.RValue) (pattern : String)
    (rounds : List (Int × List String)) (fuel : Nat)
    (hserves : RedisDB.Serves conn 0 rounds) (hfuel : rounds.length ≤ fuel) :
    RedisDB.GetKeys conn pattern fuel = .ok ((rounds.map Prod.snd).flatten, none) := by
  simpa [RedisDB.GetKeys] using
    getKeysLoop_serves conn pattern rounds 0 [] fuel hserves hfuel

/-- Claim C2 witness: a two-round scan (cursor 0 answered with cursor 5
and one key, cursor 5 answered with cursor 0 and another key) returns
both keys in batch order with a nil error. -/
theorem getKeys_scan_loop_witness :
    RedisDB.GetKeys
      (fun c => if c = 0 then .ok (.array [.int 5, .array [.bulk "user:1"]])
        else .ok (.array [.int 0, .array [.bulk "user:2"]]))
      "user:*" 2
      = .ok (["user:1", "user:2"], none) := by
  have h := getKeys_scan_loop
    (fun c => if c = 0 then .ok (.array [.int 5, .array [.bulk "user:1"]])
      else .ok (.array [.int 0, .array [.bulk "user:2"]]))
    "user:*" [(5, ["user:1"]), (0, ["user:2"])] 2
    ⟨rfl, Or.inr ⟨by decide, rfl, Or.inl ⟨rfl, rfl⟩⟩⟩ (by decide)
  simpa using h

/-- Claim C3 counterexample: a first round collects "k1", the second
round fails with transport error "boom"; `GetKeys` then returns the
non-empty partial key list ["k1"] (not an empty sequence) alongside a
freshly built pattern error (not the transport error "boom"). -/
theorem getKeys_transport_error_counterexample :
    RedisDB.GetKeys
      (fun c => if c = 0 then .ok (.array [.int 7, .array [.bulk "k1"]])
        else .error "boom")
      "p" 9
      = .ok (["k1"], some "error retrieving 'p' keys")
    ∧ (["k1"] : List String) ≠ []
    ∧ ("error retrieving 'p' keys" : String) ≠ "boom" :=
  ⟨rfl, by decide, by decide⟩

/-- The scan loop when a transport error strikes after some successful
rounds: the keys collected so far are returned (not discarded) together
with a fresh pattern-context error. -/
theorem getKeysLoop_partial_error (conn : Int → Except String RedisDB.RValue)
    (pattern e : String) (rounds : List (Int × List String)) :
    ∀ (c : Int) (keys : List String) (fuel : Nat),
      RedisDB.ServesPartial conn c rounds →
      conn (RedisDB.endCursor c rounds) = .error e →
      rounds.length < fuel →
      RedisDB.getKeysLoop conn pattern fuel c keys
        = .ok (keys ++ (rounds.map Prod.snd).flatten,
            some ("error retrieving '" ++ pattern ++ "' keys")) := by
  induction rounds with
  | nil =>
    intro c keys fuel _ herr hfuel
    rcases fuel with _ | fuel
    · simp at hfuel
    simp only [RedisDB.endCursor] at herr
    simp [RedisDB.getKeysLoop, herr, RedisDB.redisValues]
  | cons round rest ih =>
    rcases round with ⟨nc, batch⟩
    intro c keys fuel hserves herr hfuel
    rcases hserves with ⟨hconn, hnc, hrest⟩
    rcases fuel with _ | fuel
    · simp at hfuel
    have hlen : rest.length < fuel := by
      simpa using hfuel
    have herr2 : conn (RedisDB.endCursor nc rest) = .error e := by
      simpa [RedisDB.endCursor] using herr
    have := ih nc (keys ++ batch) fuel hrest herr2 hlen
    simp [RedisDB.getKeysLoop, hconn, RedisDB.redisValues, RedisDB.redisInt,
      RedisDB.redisStrings, stringsOfList_map_bulk, hnc, this]

/-- Claim C3 amended: when a scan round trip fails with a transport
error, `GetKeys` returns the keys collected from the earlier batches
(they are not discarded) together with a non-nil error; the error is a
freshly constructed one naming the pattern, not the transport error
itself. -/
theorem getKeys_transport_error_partial (conn : Int → Except String RedisDB.RValue)
    (pattern e : String) (rounds : List (Int × List String)) (fuel : Nat)
    (hserves : RedisDB.ServesPartial conn 0 rounds)
    (herr : conn (RedisDB.endCursor 0 rounds) = .error e)
    (hfuel : rounds.length < fuel) :
    RedisDB.GetKeys conn pattern fuel
      = .ok ((rounds.map Prod.snd).flatten,
          some ("error retrieving '" ++ pattern ++ "' keys")) := by
  simpa [RedisDB.GetKeys] using
    getKeysLoop_partial_error conn pattern e rounds 0 [] fuel hserves herr hfuel

/-- Claim C3 amended, witness: one successful round then a transport
error returns the partial keys with the pattern error. -/
theorem getKeys_transport_error_partial_witness :
    RedisDB.GetKeys
      (fun c => if c = 0 then .ok (.array [.int 3, .array [.bulk "a", .bulk "b"]])
        else .error "reset")
      "q" 5
      = .ok (["a", "b"], some "error retrieving 'q' keys") := by
  have h := getKeys_transport_error_partial
    (fun c => if c = 0 then .ok (.array [.int 3, .array [.bulk "a", .bulk "b"]])
      else .error "reset")
    "q" "reset" [(3, ["a", "b"])] 5
    ⟨rfl, by decide, trivial⟩ rfl (by decide)
  simpa using h

/-- Claim C10: in the scan loop, a reply whose cursor element fails to
convert is silently accepted: the conversion error is discarded, the
failed conversion yields cursor 0, the loop exits as if the enumeration
had completed, and the caller receives the keys collected so far (plus
whatever the batch element converted to, nothing if its conversion also
failed) with a nil error; likewise a failed batch conversion under a
returned cursor 0 contributes no keys and no error. -/
theorem getKeys_malformed_reply_silent (conn : Int → Except String RedisDB.RValue)
    (pattern : String) (c0 b0 : RedisDB.RValue) (c : Int) (keys : List String)
    (fuel : Nat) (hconn : conn c = .ok (.array [c0, b0])) :
    (((RedisDB.redisInt (.ok c0)).2).isSome →
      (RedisDB.redisInt (.ok c0)).1 = 0
      ∧ RedisDB.getKeysLoop conn pattern (fuel + 1) c keys
        = .ok (keys ++ ((RedisDB.redisStrings (.ok b0)).1).getD [], none))
    ∧ ((RedisDB.redisInt (.ok c0)).1 = 0 → ((RedisDB.redisStrings (.ok b0)).2).isSome →
      RedisDB.getKeysLoop conn pattern (fuel + 1) c keys
        = .ok (keys ++ [], none)) := by
  constructor
  · intro hbad
    have hzero : (RedisDB.redisInt (.ok c0)).1 = 0 := redisInt_error_zero _ hbad
    refine ⟨hzero, ?_⟩
    simp [RedisDB.getKeysLoop, hconn, RedisDB.redisValues, hzero]
  · intro hzero hbad
    have hnone' : ((RedisDB.redisStrings (.ok b0)).1) = none :=
      redisStrings_error_none _ hbad
    simp [RedisDB.getKeysLoop, hconn, RedisDB.redisValues, hzero, hnone']

/-- Claim C10 witness: a reply whose cursor element is an error reply
(so its integer conversion fails) terminates the scan at once,
delivering the batch collected in that round with a nil error. -/
theorem getKeys_malformed_reply_silent_witness :
    RedisDB.getKeysLoop
      (fun _ => .ok (.array [.err "MOVED", .array [.bulk "a"]]))
      "p" 1 0 []
      = .ok (["a"], none) := by
  have h := (getKeys_malformed_reply_silent
    (fun _ => .ok (.array [.err "MOVED", .array [.bulk "a"]]))
    "p" (.err "MOVED") (.array [.bulk "a"]) 0 [] 0 rfl).1 rfl
  simpa [RedisDB.redisStrings, RedisDB.stringsOfList] using h.2

/-- Claim C4 witness: a concrete failed dial attempt makes the pool's
dial function panic rather than return the error. -/
theorem newPool_dial_panics_on_failure_witness :
    RedisDB.newPool.dial (.error "dial tcp 10.0.0.1:6379: connection refused")
      = .panicked "dial tcp 10.0.0.1:6379: connection refused" :=
  newPool_dial_panics_on_failure "dial tcp 10.0.0.1:6379: connection refused"

/-- Claim C5 witness: a concrete zero-field call is rejected with the
usage error and zero borrows and commands, even though the oracle would
have answered successfully. -/
theorem hmget_empty_fields_rejected_witness :
    RedisDB.HMGet [] (.ok (.array []))
      = ((none, some "redis: at least once field is required"), ⟨0, []⟩) :=
  hmget_empty_fields_rejected (.ok (.array []))
